import Mathlib

/-!
Verification development for the CivicMesh post synchronization and
normalization layer.

The definitions below are a shallow embedding of the TypeScript source:
  * `services/api.ts`        — wire normalization, category vocabulary glue,
                               the list / resolve gateway operations;
  * `constants/categories.ts` — the category vocabulary table;
  * `contexts/posts-context.tsx` — the post cache (refresh / addPost);
  * `contexts/filter-context.tsx` and the `filteredPosts` computations of
    `components/feed.tsx` / `app/map.tsx` — the filter coordinator.

Modelling conventions:
  * JavaScript primitive values are embedded as `JPrim`; the loosely typed
    wire values read by `normalizePost` are `JSVal` (a primitive, an array
    of primitives, or an object exposing an `id` property — the only object
    shape the source dereferences, via `raw.user?.id`).  Nested arrays /
    richer objects never influence the embedded code paths.
  * JS numbers are embedded as integers (`Int`), with NaN represented
    explicitly (`JPrim.jnan`); fractional values do not affect any of the
    verified properties.
  * Date handling (`new Date(x).getTime()` / `.toISOString()` / `Date.now`)
    is platform behaviour, not repository code; it is passed in as explicit
    parameters `parse : String → Option Int` (`none` models an invalid
    date), `toISO : Int → String`, and `now : Int`.  Theorems that need the
    real-world fact "`toISOString` output re-parses to the same time" take
    it as a hypothesis.
  * `Array.prototype.sort` is required by ECMA-262 to be a stable sort with
    respect to the comparator; it is embedded as a stable insertion sort on
    the comparator's key.  (ECMA-262 maps a NaN comparator result to +0;
    the embedding keys unparsable dates to 0, which agrees on all inputs
    the theorems quantify over, where every date parses.)
  * String `.trim()` / `.toLowerCase()` are embedded at the ASCII level,
    which covers every string the source compares.
-/

/-- Decidable equality for `Except`, used to evaluate the normalizer's
fallible results on concrete inputs. -/
instance {e a : Type} [DecidableEq e] [DecidableEq a] : DecidableEq (Except e a) := fun x y =>
  match x, y with
  | .ok u, .ok v =>
      if h : u = v then .isTrue (congrArg Except.ok h)
      else .isFalse (fun hc => h (Except.ok.inj hc))
  | .error u, .error v =>
      if h : u = v then .isTrue (congrArg Except.error h)
      else .isFalse (fun hc => h (Except.error.inj hc))
  | .ok _, .error _ => .isFalse (fun hc => Except.noConfusion hc)
  | .error _, .ok _ => .isFalse (fun hc => Except.noConfusion hc)

/-- A JavaScript primitive value. -/
inductive JPrim where
  | undefinedV
  | jnull
  | jstr (s : String)
  | jint (n : Int)
  | jnan
  | jbool (b : Bool)
deriving DecidableEq, Repr

/-- A loosely typed JS value as read off a wire post: a primitive, an array
of primitives, or an object of which only an `id` property is ever read. -/
inductive JSVal where
  | prim (p : JPrim)
  | jarr (xs : List JPrim)
  | jobj (id : JPrim)
deriving DecidableEq, Repr

/-- JS truthiness of a primitive: `undefined`, `null`, `""`, `0`, `NaN` and
`false` are falsy. -/
def JPrim.truthy : JPrim → Bool
  | .undefinedV => false
  | .jnull => false
  | .jstr s => s ≠ ""
  | .jint n => n ≠ 0
  | .jnan => false
  | .jbool b => b

/-- JS truthiness of a value (arrays and objects are always truthy). -/
def JSVal.truthy : JSVal → Bool
  | .prim p => p.truthy
  | .jarr _ => true
  | .jobj _ => true

/-- `a ?? b` — nullish coalescing: `b` exactly when `a` is `undefined` or `null`. -/
def jsNullish (a b : JSVal) : JSVal :=
  match a with
  | .prim .undefinedV => b
  | .prim .jnull => b
  | _ => a

/-- `a || b` — logical or: `b` exactly when `a` is falsy. -/
def jsOr (a b : JSVal) : JSVal :=
  if a.truthy then a else b

/-- `v == null` — loose equality with null, true for both `null` and `undefined`. -/
def jsIsNullish : JSVal → Bool
  | .prim .undefinedV => true
  | .prim .jnull => true
  | _ => false

/-- `String(p)` on a primitive. -/
def JPrim.jsToString : JPrim → String
  | .undefinedV => "undefined"
  | .jnull => "null"
  | .jstr s => s
  | .jint n => toString n
  | .jnan => "NaN"
  | .jbool b => if b then "true" else "false"

/-- Element rendering inside `Array.prototype.join`: `undefined` and `null`
render as the empty string. -/
def JPrim.arrayElemString : JPrim → String
  | .undefinedV => ""
  | .jnull => ""
  | p => p.jsToString

/-- `String(v)` on a value (arrays join with `,`; objects print `[object Object]`). -/
def JSVal.jsToString : JSVal → String
  | .prim p => p.jsToString
  | .jarr xs => String.intercalate "," (xs.map JPrim.arrayElemString)
  | .jobj _ => "[object Object]"

/-- The ASCII whitespace trimmed by JS `String.prototype.trim` on the
strings this codebase compares. -/
def jsWhitespaceChar (c : Char) : Bool :=
  c = ' ' ∨ c = '\t' ∨ c = '\n' ∨ c = '\r'

/-- `.trim()` — drop leading and trailing whitespace. -/
def jsTrim (s : String) : String :=
  ((s.toList.dropWhile jsWhitespaceChar).reverse.dropWhile jsWhitespaceChar).reverse.asString

/-- ASCII `.toLowerCase()` on one character. -/
def jsLowerChar (c : Char) : Char :=
  if 'A' ≤ c ∧ c ≤ 'Z' then Char.ofNat (c.toNat + 32) else c

/-- `.toLowerCase()` (ASCII level, which covers every compared string). -/
def jsToLower (s : String) : String :=
  (s.toList.map jsLowerChar).asString

/-- `'0' ≤ c ≤ '9'` — the character class of `\d`. -/
def digitChar (c : Char) : Bool :=
  '0' ≤ c ∧ c ≤ '9'

/-- `/^\d+$/.test s` — `s` is one or more digits and nothing else. -/
def isNumericStr (s : String) : Bool :=
  s ≠ "" ∧ s.toList.all digitChar

/-- Integer decimal parse (optional sign then digits), used to model
`Number(string)` on the integral strings this layer handles. -/
def parseDecInt (cs : List Char) : Option Int :=
  match cs with
  | [] => none
  | '-' :: rest =>
      if rest ≠ [] ∧ rest.all digitChar then
        some (-(rest.foldl (fun acc c => acc * 10 + (c.toNat - '0'.toNat)) 0 : Nat))
      else none
  | '+' :: rest =>
      if rest ≠ [] ∧ rest.all digitChar then
        some (rest.foldl (fun acc c => acc * 10 + (c.toNat - '0'.toNat)) 0 : Nat)
      else none
  | _ =>
      if cs.all digitChar then
        some (cs.foldl (fun acc c => acc * 10 + (c.toNat - '0'.toNat)) 0 : Nat)
      else none

/-- `Number(string)`: trimmed empty string is 0; otherwise an integral
parse (`none` models NaN; fractional literals are outside this model). -/
def jsStringToNumber (s : String) : Option Int :=
  let t := jsTrim s
  if t = "" then some 0 else parseDecInt t.toList

/-- `Number(v)` — `none` models NaN. -/
def JSVal.jsToNumber : JSVal → Option Int
  | .prim .undefinedV => none
  | .prim .jnull => some 0
  | .prim (.jstr s) => jsStringToNumber s
  | .prim (.jint n) => some n
  | .prim .jnan => none
  | .prim (.jbool b) => some (if b then 1 else 0)
  | .jarr [] => some 0
  | .jarr [x] => jsStringToNumber x.arrayElemString
  | .jarr (_ :: _ :: _) => none
  | .jobj _ => none

/-- `raw.user?.id`: only an object yields its `id` property; primitives and
arrays (and the nullish short-circuit) yield `undefined`. -/
def JSVal.optId : JSVal → JSVal
  | .jobj i => .prim i
  | _ => .prim .undefinedV

/-- Case-insensitive prefix test (the `i` flag of the URI-scheme regex);
`pre` is given in lowercase. -/
def startsWithCI (s pre : String) : Bool :=
  (jsToLower s).toList.take pre.toList.length = pre.toList

/-- `/^(https?:\/\/|data:|file:\/)/i.test s`. -/
def matchesUriScheme (s : String) : Bool :=
  startsWithCI s "http://" || startsWithCI s "https://" ||
    startsWithCI s "data:" || startsWithCI s "file:/"

/-- `/^file:\/\//.test s` (case-sensitive). -/
def startsWithFileScheme (s : String) : Bool :=
  s.toList.take 7 = "file://".toList

/-! ## Category vocabulary (`constants/categories.ts`) -/

/-- The five canonical client categories (`type Category` in
`constants/categories.ts`; the value `'accessibility resources'` is spelled
`accessibilityResources` here). -/
inductive Category where
  | alert
  | warning
  | help
  | resources
  | accessibilityResources
deriving DecidableEq, Repr

/-- `type Subcategory = { id, label }`. -/
structure Subcategory where
  id : String
  label : String
deriving DecidableEq, Repr

/-- One entry of the `CATEGORIES` table. -/
structure CategoryEntry where
  value : Category
  label : String
  icon : String
  subcategories : List Subcategory
deriving DecidableEq, Repr

/-- The static `CATEGORIES` vocabulary table. -/
def CATEGORIES : List CategoryEntry := [
  { value := .alert, label := "Alert", icon := "warning", subcategories := [
      ⟨"crime", "Crime"⟩, ⟨"accident", "Accident"⟩,
      ⟨"natural-disaster", "Natural Disaster"⟩, ⟨"fire", "Fire"⟩,
      ⟨"medical-emergency", "Medical Emergency"⟩, ⟨"other", "Other"⟩] },
  { value := .warning, label := "Warning", icon := "error", subcategories := [
      ⟨"road-closure", "Road Closure"⟩, ⟨"weather", "Weather"⟩,
      ⟨"health-advisory", "Health Advisory"⟩, ⟨"safety-alert", "Safety Alert"⟩,
      ⟨"construction", "Construction"⟩, ⟨"other", "Other"⟩] },
  { value := .help, label := "Help", icon := "help", subcategories := [
      ⟨"medical", "Medical"⟩, ⟨"shelter", "Shelter"⟩, ⟨"food", "Food"⟩,
      ⟨"transportation", "Transportation"⟩, ⟨"information", "Information"⟩,
      ⟨"rescue", "Rescue"⟩, ⟨"other", "Other"⟩] },
  { value := .resources, label := "Resources", icon := "inventory", subcategories := [
      ⟨"food-bank", "Food Bank"⟩, ⟨"water", "Water"⟩, ⟨"shelter", "Shelter"⟩,
      ⟨"medical-supplies", "Medical Supplies"⟩,
      ⟨"charging-station", "Charging Station"⟩, ⟨"wifi", "WiFi"⟩,
      ⟨"other", "Other"⟩] },
  { value := .accessibilityResources, label := "Accessibility Resources",
    icon := "accessible", subcategories := [
      ⟨"wheelchair-access", "Wheelchair Access"⟩,
      ⟨"sign-language", "Sign Language"⟩, ⟨"visual-aids", "Visual Aids"⟩,
      ⟨"hearing-assistance", "Hearing Assistance"⟩,
      ⟨"accessible-restroom", "Accessible Restroom"⟩, ⟨"parking", "Parking"⟩,
      ⟨"other", "Other"⟩] }]

/-! ## Category / subcategory wire mapping (`services/api.ts`) -/

/-- `toBackendCategory` — canonical category to backend display label. -/
def toBackendCategory : Category → String
  | .alert => "Alert"
  | .warning => "Warning"
  | .resources => "Resources"
  | .accessibilityResources => "Accessibility Resources"
  | .help => "Help"

/-- `fromBackendCategory` — backend value (any JS value) to canonical
category; non-strings normalize like the empty string; unrecognized
values fall back to `help`. -/
def fromBackendCategory (category : JSVal) : Category :=
  let normalized :=
    jsToLower (jsTrim (match category with | .prim (.jstr s) => s | _ => ""))
  if normalized = "alert" then .alert
  else if normalized = "warning" then .warning
  else if normalized = "resources" then .resources
  else if normalized = "accessibility resources" ∨ normalized = "accessibility" then
    .accessibilityResources
  else .help

/-- `toBackendSubcategory` — canonical subcategory id to backend label
(`none` models `null`; a falsy id — absent or empty — yields `null`;
an unknown id is passed through unchanged). -/
def toBackendSubcategory (category : Category) (subcategoryId : Option String) :
    Option String :=
  match subcategoryId with
  | none => none
  | some sid =>
      if sid = "" then none
      else
        match CATEGORIES.find? (fun entry => entry.value = category) with
        | none => some sid
        | some categoryConfig =>
            match categoryConfig.subcategories.find? (fun sub => sub.id = sid) with
            | some matched => some matched.label
            | none => some sid

/-- `fromBackendSubcategory` — raw backend subcategory value to canonical
id; non-strings and blank strings yield `undefined`; matching compares the
trimmed lowercased value against both label (lowercased) and id; an
unmatched raw string is preserved verbatim. -/
def fromBackendSubcategory (category : Category) (raw : JSVal) : Option String :=
  match raw with
  | .prim (.jstr s) =>
      if jsTrim s = "" then none
      else
        let normalizedRaw := jsToLower (jsTrim s)
        let matched := (CATEGORIES.find? (fun entry => entry.value = category)).bind
          (fun cfg => cfg.subcategories.find?
            (fun sub => jsToLower sub.label = normalizedRaw ∨ sub.id = normalizedRaw))
        match matched with
        | some sub => some sub.id
        | none => some s
  | _ => none

/-! ## Post entity and wire normalization (`services/api.ts`) -/

/-- The canonical client `Post` entity (`export type Post`).  Fields whose
TS annotation is `string`/`number`/enum but which the normalizer fills with
coerced values keep their coerced type; fields the normalizer passes
through without coercion (and which therefore may carry any runtime value,
the TS annotation notwithstanding) are typed `JSVal`. -/
structure Post where
  id : String
  title : JSVal := .prim (.jstr "")
  category : Category := .help
  subcategory : Option String := none
  description : JSVal := .prim (.jstr "")
  latitude : Int := 0
  longitude : Int := 0
  userId : String := "unknown"
  timestamp : String := ""
  createdAt : String := ""
  photoUri : String := ""
  videoUri : JSVal := .prim .undefinedV
  onMyWayBy : JSVal := .jarr []
  resolvedBy : JSVal := .prim .undefinedV
  resolutionCode : JSVal := .prim .undefinedV
  resolutionPhotoUri : JSVal := .prim .undefinedV
  resolutionVideoUri : JSVal := .prim .undefinedV
  resolvedAt : JSVal := .prim .undefinedV
  is_active : JSVal := .prim .undefinedV
  image_url : JSVal := .prim .undefinedV
  body : JSVal := .prim .undefinedV
deriving DecidableEq, Repr

/-- A raw wire post: the JS object fields `normalizePost` reads.  An absent
property is `undefined`.  (The `_id` alias is spelled `underscoreId`.) -/
structure RawPost where
  id : JSVal := .prim .undefinedV
  slug : JSVal := .prim .undefinedV
  pk : JSVal := .prim .undefinedV
  uuid : JSVal := .prim .undefinedV
  underscoreId : JSVal := .prim .undefinedV
  postId : JSVal := .prim .undefinedV
  created_at : JSVal := .prim .undefinedV
  createdAt : JSVal := .prim .undefinedV
  timestamp : JSVal := .prim .undefinedV
  updated_at : JSVal := .prim .undefinedV
  latitude : JSVal := .prim .undefinedV
  longitude : JSVal := .prim .undefinedV
  user_id : JSVal := .prim .undefinedV
  userId : JSVal := .prim .undefinedV
  user : JSVal := .prim .undefinedV
  resolved_by : JSVal := .prim .undefinedV
  resolvedBy : JSVal := .prim .undefinedV
  category : JSVal := .prim .undefinedV
  subcategory : JSVal := .prim .undefinedV
  sub_category : JSVal := .prim .undefinedV
  title : JSVal := .prim .undefinedV
  body : JSVal := .prim .undefinedV
  description : JSVal := .prim .undefinedV
  image_url : JSVal := .prim .undefinedV
  photoUri : JSVal := .prim .undefinedV
  imageUrl : JSVal := .prim .undefinedV
  video_url : JSVal := .prim .undefinedV
  videoUri : JSVal := .prim .undefinedV
  on_my_way_by : JSVal := .prim .undefinedV
  onMyWayBy : JSVal := .prim .undefinedV
  resolution_code : JSVal := .prim .undefinedV
  resolutionCode : JSVal := .prim .undefinedV
  resolution_photo_url : JSVal := .prim .undefinedV
  resolutionPhotoUri : JSVal := .prim .undefinedV
  resolution_video_url : JSVal := .prim .undefinedV
  resolutionVideoUri : JSVal := .prim .undefinedV
  resolved_at : JSVal := .prim .undefinedV
  resolvedAt : JSVal := .prim .undefinedV
  is_active : JSVal := .prim .undefinedV
  isActive : JSVal := .prim .undefinedV
deriving DecidableEq, Repr

/-- `API_BASE_URL` (the default; the env override is deployment
configuration, not code). -/
def API_BASE_URL : String := "https://backend-51lr.onrender.com"

/-- `API_BASE_URL.replace(/^https?:\/\//, '')`. -/
def stripHttpScheme (s : String) : String :=
  if s.toList.take 8 = "https://".toList then (s.toList.drop 8).asString
  else if s.toList.take 7 = "http://".toList then (s.toList.drop 7).asString
  else s

/-- `buildImageUrl` (local helper inside `normalizePost`): empty for
nullish/blank input; full URIs pass through; a purely numeric value is
expanded to a credential-embedding fetch URL; anything else passes
through as provided. -/
def buildImageUrl (val : JSVal) : String :=
  if jsIsNullish val then ""
  else
    let str := jsTrim val.jsToString
    if str = "" then ""
    else if matchesUriScheme str then str
    else if isNumericStr str then
      "https://" ++ ("testuser" ++ ":" ++ "testpassword" ++ "@" ++
        stripHttpScheme API_BASE_URL ++ "/image/" ++ str)
    else str

/-- `new Date(v)`'s internal time value (`none` = Invalid Date): strings go
through the platform parser; other values through `ToNumber`. -/
def jsDateMs (parse : String → Option Int) : JSVal → Option Int
  | .prim (.jstr s) => parse s
  | .jarr xs => parse (JSVal.jsToString (.jarr xs))
  | v => v.jsToNumber

/-- `new Date(v).toISOString()`: throws `RangeError: Invalid time value`
on an invalid date. -/
def jsToISOString (parse : String → Option Int) (toISO : Int → String) (v : JSVal) :
    Except String String :=
  match jsDateMs parse v with
  | none => .error "Invalid time value"
  | some t => .ok (toISO t)

/-- `normalizePost` (`services/api.ts`).  A falsy `raw` argument is `none`.
The result is `Except`: `.error` models the `RangeError` thrown by
`toISOString` on a present-but-unparsable timestamp field, which the
gateway's surrounding `try`/`catch` later converts into a failure
response. -/
def normalizePost (parse : String → Option Int) (toISO : Int → String) (now : Int)
    (raw : Option RawPost) : Except String Post :=
  match raw with
  | none =>
      .ok { id := "", title := .prim (.jstr ""), category := .help,
            description := .prim (.jstr ""), latitude := 0, longitude := 0,
            userId := "unknown", timestamp := toISO now, createdAt := toISO now,
            photoUri := "", onMyWayBy := .jarr [] }
  | some raw =>
      let id := jsNullish raw.id (jsNullish raw.slug (jsNullish raw.pk
        (jsNullish raw.uuid (jsNullish raw.underscoreId raw.postId))))
      let createdAt := jsOr raw.created_at (jsOr raw.createdAt
        (jsOr raw.timestamp (.prim (.jstr (toISO now)))))
      let timestamp := jsOr raw.updated_at (jsOr raw.timestamp createdAt)
      let latitude := raw.latitude.jsToNumber
      let longitude := raw.longitude.jsToNumber
      let userId := jsNullish raw.user_id (jsNullish raw.userId
        (jsNullish raw.user.optId (jsNullish raw.user (.prim (.jstr "unknown")))))
      let resolvedBy := jsNullish raw.resolved_by raw.resolvedBy
      let normalizedCategory := fromBackendCategory raw.category
      match jsToISOString parse toISO timestamp, jsToISOString parse toISO createdAt with
      | .error e, _ => .error e
      | .ok _, .error e => .error e
      | .ok timestampISO, .ok createdAtISO => .ok {
        id := JSVal.jsToString (jsNullish id (.prim (.jstr ""))),
        title := jsNullish raw.title (.prim (.jstr "")),
        category := normalizedCategory,
        subcategory := fromBackendSubcategory normalizedCategory
          (jsNullish raw.subcategory raw.sub_category),
        description := jsNullish raw.body (jsNullish raw.description (.prim (.jstr ""))),
        latitude := latitude.getD 0,
        longitude := longitude.getD 0,
        userId := match userId with
          | .prim (.jint n) => JPrim.jsToString (.jint n)
          | .prim .jnan => JPrim.jsToString .jnan
          | v => JSVal.jsToString (jsNullish v (.prim (.jstr "unknown"))),
        timestamp := timestampISO,
        createdAt := createdAtISO,
        photoUri := buildImageUrl (jsNullish raw.image_url
          (jsNullish raw.photoUri (jsNullish raw.imageUrl (.prim (.jstr ""))))),
        videoUri := jsNullish raw.video_url (jsNullish raw.videoUri (.prim .undefinedV)),
        onMyWayBy := match raw.on_my_way_by with
          | .jarr xs => .jarr (xs.map (fun entry => .jstr entry.jsToString))
          | _ => jsNullish raw.onMyWayBy (.jarr []),
        resolvedBy := if resolvedBy.truthy then .prim (.jstr resolvedBy.jsToString)
          else raw.resolvedBy,
        resolutionCode := jsNullish raw.resolution_code raw.resolutionCode,
        resolutionPhotoUri := jsNullish raw.resolution_photo_url raw.resolutionPhotoUri,
        resolutionVideoUri := jsNullish raw.resolution_video_url raw.resolutionVideoUri,
        resolvedAt := jsNullish raw.resolved_at raw.resolvedAt,
        is_active := jsNullish raw.is_active raw.isActive,
        image_url := raw.image_url,
        body := raw.body }

/-! ## Effective timestamp and the list sort (`getPosts`, cache sorts) -/

/-- `p.timestamp || p.createdAt` — the effective-timestamp string of a
post (the update time when present, else the creation time). -/
def effectiveTs (p : Post) : String :=
  if p.timestamp = "" then p.createdAt else p.timestamp

/-- `new Date(effectiveTs p).getTime()` as the sort key.  An unparsable
date keys to 0 (see the NaN note in the header). -/
def postSortKey (parse : String → Option Int) (p : Post) : Int :=
  (parse (effectiveTs p)).getD 0

/-- The comparator relation of the descending timestamp sort
(`(a, b) => new Date(eff b).getTime() - new Date(eff a).getTime() ≤ 0`). -/
def newestFirst (parse : String → Option Int) (a b : Post) : Prop :=
  postSortKey parse b ≤ postSortKey parse a

instance (parse : String → Option Int) : DecidableRel (newestFirst parse) :=
  fun _a _b => inferInstanceAs (Decidable (_ ≤ _))

instance (parse : String → Option Int) : IsTotal Post (newestFirst parse) :=
  ⟨fun a b => le_total (postSortKey parse b) (postSortKey parse a)⟩

instance (parse : String → Option Int) : IsTrans Post (newestFirst parse) :=
  ⟨fun _ _ _ hab hbc => le_trans hbc hab⟩

/-- `.sort((a, b) => new Date(...).getTime() - new Date(...).getTime())`:
the ECMA-262 stable sort on the descending-timestamp comparator. -/
def sortByTimestampDesc (parse : String → Option Int) (posts : List Post) :
    List Post :=
  List.insertionSort (newestFirst parse) posts

/-- `ApiResponse<T>` of `services/api.ts`. -/
structure ApiResponse (T : Type) where
  success : Bool
  data : Option T := none
  error : Option String := none
  token : Option String := none
deriving DecidableEq, Repr

/-- A successful response carrying `data`. -/
def mkSuccess {T : Type} (d : T) : ApiResponse T :=
  { success := true, data := some d }

/-- A failure response carrying an error message. -/
def mkFailure {T : Type} (msg : String) : ApiResponse T :=
  { success := false, error := some msg }

/-! ## `getPosts` (list operation) -/

/-- One probe candidate of the list response body: either an array of wire
posts (a falsy element is `none`) or some non-array value. -/
inductive WireField where
  | arrF (xs : List (Option RawPost))
  | nonArrF
deriving DecidableEq, Repr

/-- The parsed JSON body of the list response: itself an array, or an
object whose `posts` / `results` / `data` properties are probed, or a
non-object primitive. -/
inductive ListBody where
  | arrB (xs : List (Option RawPost))
  | objB (posts results dataField : WireField)
  | primB
deriving DecidableEq, Repr

/-- `Array.isArray` probe of one candidate. -/
def WireField.asArray : WireField → Option (List (Option RawPost))
  | .arrF xs => some xs
  | .nonArrF => none

/-- `[data?.posts, data?.results, data?.data, data]` with each candidate
reduced to its `Array.isArray` content (an array body has no own `posts` /
`results` / `data` array properties; an object body is itself not an
array). -/
def possibleCollections : ListBody → List (Option (List (Option RawPost)))
  | .arrB xs => [none, none, none, some xs]
  | .objB p r d => [p.asArray, r.asArray, d.asArray, none]
  | .primB => [none, none, none, none]

/-- `possibleCollections.find(Array.isArray) ?? []` — the first candidate
that is actually an array, defaulting to the empty array. -/
def extractRawPosts (body : ListBody) : List (Option RawPost) :=
  ((possibleCollections body).findSome? id).getD []

/-- `Array.prototype.map` over a throwing callback: elements are processed
left to right and the first exception aborts the whole map. -/
def mapExcept {A B E : Type} (f : A → Except E B) : List A → Except E (List B)
  | [] => .ok []
  | x :: xs =>
      match f x with
      | .error e => .error e
      | .ok y =>
          match mapExcept f xs with
          | .error e => .error e
          | .ok ys => .ok (y :: ys)

/-- `getPosts`, live path (`USE_MOCK_API = false`).  `httpOk` is
`response.ok`; `failMsg` abstracts the non-2xx message derivation
`data.message || data.error || 'Failed to fetch posts'`.  A `RangeError`
escaping `normalizePost` is converted by the surrounding `catch` into a
failure response carrying the error's message. -/
def getPostsLive (parse : String → Option Int) (toISO : Int → String) (now : Int)
    (httpOk : Bool) (failMsg : String) (body : ListBody) :
    ApiResponse (List Post) :=
  if !httpOk then mkFailure failMsg
  else
    match mapExcept (normalizePost parse toISO now) (extractRawPosts body) with
    | .error e => mkFailure e
    | .ok rawPosts => mkSuccess (sortByTimestampDesc parse rawPosts)

/-- `getPosts`, mock path: a sorted copy of the in-process storage. -/
def getPostsMock (parse : String → Option Int) (mockPostsStorage : List Post) :
    ApiResponse (List Post) :=
  mkSuccess (sortByTimestampDesc parse mockPostsStorage)

/-! ## Post cache (`contexts/posts-context.tsx`) -/

/-- The cache's state: the post collection plus the loading flag. -/
structure CacheState where
  posts : List Post
  isLoading : Bool
deriving DecidableEq, Repr

/-- `refreshPosts`: the sequence of cache states an invocation passes
through, given the gateway response — `setIsLoading(true)`, then (on a
successful response carrying data, an empty array included) the sorted
swap, then the `finally` `setIsLoading(false)`. -/
def refreshPostsStates (parse : String → Option Int) (st : CacheState)
    (resp : ApiResponse (List Post)) : List CacheState :=
  let s1 : CacheState := { st with isLoading := true }
  match resp.success, resp.data with
  | true, some data =>
      let s2 : CacheState := { s1 with posts := sortByTimestampDesc parse data }
      [s1, s2, { s2 with isLoading := false }]
  | _, _ => [s1, { s1 with isLoading := false }]

/-- The cache state after a `refreshPosts` invocation completes. -/
def refreshPostsFinal (parse : String → Option Int) (st : CacheState)
    (resp : ApiResponse (List Post)) : CacheState :=
  ((refreshPostsStates parse st resp).getLast?).getD st

/-- `addPost`: prepend the new post and re-sort (no de-duplication). -/
def addPost (parse : String → Option Int) (post : Post) (prevPosts : List Post) :
    List Post :=
  sortByTimestampDesc parse (post :: prevPosts)

/-! ## Filter coordinator (`contexts/filter-context.tsx`) -/

/-- `SelectedSubcategories`: the per-scope category → subcategory-ids
object, as an insertion-ordered association list (JS object keys are
unique; all operations preserve key uniqueness). -/
abbrev SubMap := List (Category × List String)

/-- `scopedSubs[category]` lookup. -/
def lookupSub (subs : SubMap) (c : Category) : Option (List String) :=
  (subs.find? (fun e => e.1 = c)).map Prod.snd

/-- `updatedScoped[category] = next`: update in place when the key exists,
else append (JS property-insertion order). -/
def setSub (subs : SubMap) (c : Category) (v : List String) : SubMap :=
  if subs.any (fun e => e.1 = c) then
    subs.map (fun e => if e.1 = c then (c, v) else e)
  else subs ++ [(c, v)]

/-- `delete updatedScoped[category]`. -/
def eraseSub (subs : SubMap) (c : Category) : SubMap :=
  subs.filter (fun e => e.1 ≠ c)

/-- The two presentation scopes. -/
inductive FilterScope where
  | feed
  | map
deriving DecidableEq, Repr

/-- The scope that is not `s`. -/
def FilterScope.other : FilterScope → FilterScope
  | .feed => .map
  | .map => .feed

/-- The coordinator's state: `selectedCategoriesByScope` and
`selectedSubcategoriesByScope`, one field per scope. -/
structure FiltersState where
  catsFeed : List Category := []
  catsMap : List Category := []
  subsFeed : SubMap := []
  subsMap : SubMap := []
deriving DecidableEq, Repr

/-- `selectedCategoriesByScope[scope]`. -/
def FiltersState.cats (st : FiltersState) : FilterScope → List Category
  | .feed => st.catsFeed
  | .map => st.catsMap

/-- `selectedSubcategoriesByScope[scope]`. -/
def FiltersState.subs (st : FiltersState) : FilterScope → SubMap
  | .feed => st.subsFeed
  | .map => st.subsMap

/-- Replace one scope's category list. -/
def FiltersState.setCats (st : FiltersState) :
    FilterScope → List Category → FiltersState
  | .feed, v => { st with catsFeed := v }
  | .map, v => { st with catsMap := v }

/-- Replace one scope's subcategory map. -/
def FiltersState.setSubs (st : FiltersState) : FilterScope → SubMap → FiltersState
  | .feed, v => { st with subsFeed := v }
  | .map, v => { st with subsMap := v }

/-- `toggleSubcategory(scope, category, subId)`: toggle the id inside the
scope's map (dropping the key when its list empties), then add the parent
category to the scope's category list when absent. -/
def toggleSubcategory (st : FiltersState) (scope : FilterScope)
    (category : Category) (subId : String) : FiltersState :=
  let scopedSubs := st.subs scope
  let current := (lookupSub scopedSubs category).getD []
  let isSelected := current.contains subId
  let next := if isSelected then current.filter (fun i => i ≠ subId)
    else current ++ [subId]
  let updatedScoped := if next = [] then eraseSub scopedSubs category
    else setSub scopedSubs category next
  let st1 := st.setSubs scope updatedScoped
  let currentCategories := st1.cats scope
  if currentCategories.contains category then st1
  else st1.setCats scope (currentCategories ++ [category])

/-! ## Derived visibility (`components/feed.tsx` / `app/map.tsx`) -/

/-- `Object.values(selectedSubcategories).reduce(concat)` — the flattened
subcategory selection. -/
def flattenSubs (subs : SubMap) : List String :=
  (subs.map Prod.snd).foldr (· ++ ·) []

/-- The shared filter predicate body: the category conjunct applies only
when the category set is non-empty; the subcategory conjunct only when the
flattened subcategory set is non-empty, and a post with a falsy
subcategory (absent or empty) fails it. -/
def passesFilters (cats : List Category) (flat : List String) (p : Post) : Bool :=
  (if cats ≠ [] then cats.contains p.category else true) &&
    (if flat ≠ [] then
        match p.subcategory with
        | some s => if s ≠ "" then flat.contains s else false
        | none => false
      else true)

/-- `filteredPosts` of the feed screen: early-returns all posts when
`hasActiveFilters` is false (no categories selected and no keys in the
subcategory map). -/
def feedFilteredPosts (cats : List Category) (subs : SubMap)
    (posts : List Post) : List Post :=
  if cats = [] ∧ subs = [] then posts
  else posts.filter (passesFilters cats (flattenSubs subs))

/-- `filteredPosts` of the map screen: always filters with the same
predicate body. -/
def mapFilteredPosts (cats : List Category) (subs : SubMap)
    (posts : List Post) : List Post :=
  posts.filter (passesFilters cats (flattenSubs subs))

/-! ## Resolve operation (`services/api.ts` / `app/post-detail.tsx`) -/

/-- `ResolvePostData`. -/
structure ResolvePostData where
  postId : String
  userId : String
  resolutionCode : String
  resolutionPhotoUri : String
  resolutionVideoUri : Option String := none
  postSnapshot : Post
deriving DecidableEq, Repr

/-- Update the first element satisfying `p` (JS mutates the single object
`find` returned; object keys are unique so at most one matches). -/
def updateFirst {α : Type} (p : α → Bool) (f : α → α) : List α → List α
  | [] => []
  | x :: xs => if p x then f x :: xs else x :: updateFirst p f xs

/-- The field mutations `mockResolvePost` applies to the found post. -/
def applyMockResolution (toISO : Int → String) (now : Int) (d : ResolvePostData)
    (p : Post) : Post :=
  { p with
      resolvedBy := .prim (.jstr d.userId),
      resolutionCode := .prim (.jstr d.resolutionCode),
      resolutionPhotoUri := .prim (.jstr d.resolutionPhotoUri),
      resolutionVideoUri := match d.resolutionVideoUri with
        | some v => .prim (.jstr v)
        | none => .prim .undefinedV,
      resolvedAt := .prim (.jstr (toISO now)),
      is_active := .prim (.jbool false) }

/-- `mockResolvePost`: find the post by id ("Post not found" failure when
absent), mutate it in place with the resolution fields, return it.  No
validation of the resolution photo takes place. -/
def mockResolvePost (toISO : Int → String) (now : Int) (storage : List Post)
    (d : ResolvePostData) : List Post × ApiResponse Post :=
  match storage.find? (fun p => p.id = d.postId) with
  | none => (storage, mkFailure "Post not found")
  | some p =>
      (updateFirst (fun q => q.id = d.postId) (applyMockResolution toISO now d) storage,
        mkSuccess (applyMockResolution toISO now d p))

/-- The payload of a successful `uploadImage` call. -/
structure UploadData where
  imageUrl : String
deriving DecidableEq, Repr

/-- A network request issued by the live resolve path.  The PUT carries the
`resolution_photo_url` field of its body: the uploaded remote URL when the
upload step ran and succeeded with a truthy URL, else the original
reference. -/
inductive NetRequest where
  | uploadImageReq (userId postId localUri : String)
  | putPostReq (postId resolutionPhotoUrl : String)
deriving DecidableEq, Repr

/-- `resolvePost`, live path: the list of network requests issued and the
result.  The resolution image is uploaded first only when the photo
reference is a truthy `file://` URI; the PUT is always issued.  On a 2xx
response the result is the normalized body with the resolution fields
forced to the just-submitted values (the normalizer's object literal lists
every modelled `Post` field, so in `{...snapshot, ...normalized, ...}` the
normalized fields override the whole snapshot).  `putFailMsg` abstracts
the non-2xx message derivation. -/
def resolvePostLive (parse : String → Option Int) (toISO : Int → String)
    (now : Int) (d : ResolvePostData) (uploadResp : ApiResponse UploadData)
    (putOk : Bool) (putFailMsg : String) (putBody : Option RawPost) :
    List NetRequest × ApiResponse Post :=
  let doUpload := d.resolutionPhotoUri ≠ "" ∧ startsWithFileScheme d.resolutionPhotoUri
  let uploadedUrlTruthy : Bool := uploadResp.success &&
    (match uploadResp.data with | some u => decide (u.imageUrl ≠ "") | none => false)
  let sentPhotoUri :=
    if doUpload ∧ uploadedUrlTruthy = true then
      match uploadResp.data with
      | some u => u.imageUrl
      | none => d.resolutionPhotoUri
    else d.resolutionPhotoUri
  let requests := (if doUpload then
      [NetRequest.uploadImageReq d.userId d.postId d.resolutionPhotoUri]
    else []) ++ [NetRequest.putPostReq d.postId sentPhotoUri]
  let result :=
    if !putOk then mkFailure putFailMsg
    else
      match normalizePost parse toISO now putBody with
      | .error e => mkFailure e
      | .ok normalized =>
          mkSuccess { normalized with
            resolvedBy := .prim (.jstr d.userId),
            resolutionCode := .prim (.jstr d.resolutionCode),
            resolutionPhotoUri := .prim (.jstr d.resolutionPhotoUri),
            resolutionVideoUri := match d.resolutionVideoUri with
              | some v => .prim (.jstr v)
              | none => .prim .undefinedV,
            resolvedAt := .prim (.jstr (toISO now)),
            is_active := .prim (.jbool false) }
  (requests, result)

/-- The validation guard of the post-detail screen's `handleResolve`
(`app/post-detail.tsx`), run before `resolvePost` is invoked: rejects a
blank resolution code, then a falsy (null or empty) resolution photo.
`some msg` is the alert shown; `none` lets the gateway call proceed. -/
def handleResolveGuard (resolutionCode : String)
    (resolutionPhotoUri : Option String) : Option String :=
  if jsTrim resolutionCode = "" then some "Please enter a resolution code."
  else if (match resolutionPhotoUri with | none => true | some s => s = "") then
    some "Photo is required to resolve this post."
  else none

/-! ## A concrete date model for witnesses

An executable instantiation of the `parse` / `toISO` parameters satisfying
the round-trip law `parse (toISO t) = some t`: time `t` serializes to a
sign marker plus a run of `t` characters. -/

/-- Witness serializer: `t ≥ 0` becomes `t` copies of `'x'`; `t < 0`
becomes `'-'` followed by `-t` copies. -/
def ctoISO (t : Int) : String :=
  if t < 0 then ('-' :: List.replicate (-t).toNat 'x').asString
  else (List.replicate t.toNat 'x').asString

/-- Witness parser: inverse of `ctoISO` by run length. -/
def cparse (s : String) : Option Int :=
  if s.toList.head? = some '-' then some (-(s.toList.length : Int) + 1)
  else some (s.toList.length : Int)

/-- Witness parser with one designated invalid date string. -/
def cparseBad (s : String) : Option Int :=
  if s = "not-a-date" then none else cparse s


/-! ## Concrete inputs used by counterexamples and witnesses -/

/-- A cached post with id "1" (older effective timestamp). -/
def cexDupOld : Post := { id := "1", timestamp := ctoISO 3 }

/-- A newly added post sharing id "1" (newer effective timestamp). -/
def cexDupNew : Post := { id := "1", timestamp := ctoISO 7 }

/-- A post whose category is not `help` but whose subcategory is "food". -/
def cexFilterPost : Post :=
  { id := "a", category := .alert, subcategory := some "food" }

/-- An existing post a resolve operation can target. -/
def cexResolveTarget : Post := { id := "p1", timestamp := ctoISO 3 }

/-- Resolve data with an empty (missing) resolution photo reference. -/
def cexResolveData : ResolvePostData :=
  { postId := "p1", userId := "u1", resolutionCode := "fixed",
    resolutionPhotoUri := "", postSnapshot := cexResolveTarget }

/-- A wire post carrying a numeric media id. -/
def witnessRawPhoto : RawPost := { image_url := .prim (.jstr "42") }

/-- The normalization of `witnessRawPhoto` under the witness date model. -/
def witnessNormalizedPost : Post :=
  (normalizePost cparse ctoISO 5 (some witnessRawPhoto)).toOption.getD { id := "" }

/-- A cached post with an id distinct from "1". -/
def witnessFreshPost : Post := { id := "9", timestamp := ctoISO 11 }

/-- A post with no subcategory. -/
def witnessNoSubPost : Post := { id := "n", category := .help }

/-- A list response body wrapping two wire posts under the `posts` key. -/
def witnessListBody : ListBody :=
  .objB (.arrF [some { timestamp := .prim (.jstr (ctoISO 3)) },
                some { timestamp := .prim (.jstr (ctoISO 9)) }])
    .nonArrF .nonArrF

/-- The collection a successful list call over `witnessListBody` returns. -/
def witnessSortedPosts : List Post :=
  ((getPostsLive cparse ctoISO 5 true "Failed to fetch posts" witnessListBody).data).getD []

/-- The newest post of `witnessSortedPosts`. -/
def witnessHeadPost : Post := witnessSortedPosts.headD { id := "" }

/-- The round-trip law of the witness date model. -/
theorem cparse_ctoISO (t : Int) : cparse (ctoISO t) = some t := by
  unfold cparse ctoISO
  by_cases h : t < 0
  · simp only [if_pos h, List.toList_asString, List.head?_cons, List.length_cons,
      List.length_replicate, if_true]
    congr 1
    push_cast
    omega
  · simp only [if_neg h, List.toList_asString, List.length_replicate]
    have hhead : (List.replicate t.toNat 'x').head? ≠ some '-' := by
      rcases ht : t.toNat with _ | n
      · simp
      · rw [List.replicate_succ]
        simp
    rw [if_neg hhead]
    congr 1
    omega

/-- The designated invalid date string is never a serializer output. -/
theorem ctoISO_ne_bad (t : Int) : ctoISO t ≠ "not-a-date" := by
  unfold ctoISO
  by_cases h : t < 0
  · simp only [if_pos h]
    intro hc
    have := congrArg String.toList hc
    simp only [List.toList_asString] at this
    have h2 : ('-' :: List.replicate (-t).toNat 'x').head? = "not-a-date".toList.head? := by
      rw [this]
    simp at h2
  · simp only [if_neg h]
    intro hc
    have := congrArg String.toList hc
    simp only [List.toList_asString] at this
    have hlen : (List.replicate t.toNat 'x').length = "not-a-date".toList.length := by
      rw [this]
    simp only [List.length_replicate] at hlen
    rw [show "not-a-date".toList.length = 10 from rfl] at hlen
    rw [hlen] at this
    exact absurd this (by decide)

/-- The round-trip law also holds for the parser with an invalid date. -/
theorem cparseBad_ctoISO (t : Int) : cparseBad (ctoISO t) = some t := by
  unfold cparseBad
  rw [if_neg (ctoISO_ne_bad t)]
  exact cparse_ctoISO t

/-! ## Helper lemmas -/

/-- `toISOString` only ever returns serializer outputs. -/
theorem jsToISOString_ok (parse : String → Option Int) (toISO : Int → String)
    (v : JSVal) (s : String) (h : jsToISOString parse toISO v = .ok s) :
    ∃ t, s = toISO t := by
  unfold jsToISOString at h
  rcases hd : jsDateMs parse v with _ | t
  · rw [hd] at h
    exact Except.noConfusion h
  · rw [hd] at h
    exact ⟨t, (Except.ok.inj h).symm⟩

/-- Both timestamps of a successfully normalized post are serializer
outputs. -/
theorem normalizePost_ok_timestamps (parse : String → Option Int)
    (toISO : Int → String) (now : Int) (raw : Option RawPost) (p : Post)
    (h : normalizePost parse toISO now raw = .ok p) :
    (∃ a, p.timestamp = toISO a) ∧ (∃ b, p.createdAt = toISO b) := by
  rcases raw with _ | raw
  · simp only [normalizePost, Except.ok.injEq] at h
    rw [← h]
    exact ⟨⟨now, rfl⟩, ⟨now, rfl⟩⟩
  · simp only [normalizePost] at h
    split at h
    · exact Except.noConfusion h
    · exact Except.noConfusion h
    · rename_i tsISO caISO hts hca
      rw [Except.ok.injEq] at h
      rw [← h]
      exact ⟨jsToISOString_ok _ _ _ _ hts, jsToISOString_ok _ _ _ _ hca⟩

/-- Every element of a successful `mapExcept` image comes from some source
element. -/
theorem mapExcept_ok_mem {A B E : Type} (f : A → Except E B) :
    ∀ (xs : List A) (ys : List B), mapExcept f xs = .ok ys →
      ∀ y ∈ ys, ∃ x, x ∈ xs ∧ f x = .ok y := by
  intro xs
  induction xs with
  | nil =>
      intro ys h y hy
      simp only [mapExcept, Except.ok.injEq] at h
      rw [← h] at hy
      simp at hy
  | cons x xs ih =>
      intro ys h y hy
      simp only [mapExcept] at h
      split at h
      · exact Except.noConfusion h
      · rename_i b hb
        split at h
        · exact Except.noConfusion h
        · rename_i bs hbs
          rw [Except.ok.injEq] at h
          rw [← h] at hy
          rcases List.mem_cons.mp hy with hy | hy
          · exact ⟨x, List.mem_cons_self x xs, by rw [hb, hy]⟩
          · obtain ⟨x', hx', hfx'⟩ := ih bs hbs y hy
            exact ⟨x', List.mem_cons_of_mem x hx', hfx'⟩

/-- Under the round-trip law, a post whose timestamps are serializer
outputs has a parsable effective timestamp whose value is its sort key. -/
theorem effectiveTs_parses (parse : String → Option Int) (toISO : Int → String)
    (hRT : ∀ t, parse (toISO t) = some t) (p : Post)
    (ha : ∃ a, p.timestamp = toISO a) (hb : ∃ b, p.createdAt = toISO b) :
    parse (effectiveTs p) = some (postSortKey parse p) := by
  obtain ⟨a, ha⟩ := ha
  obtain ⟨b, hb⟩ := hb
  unfold postSortKey effectiveTs
  by_cases he : p.timestamp = ""
  · rw [if_pos he, hb, hRT b]
    rfl
  · rw [if_neg he, ha, hRT a]
    rfl

/-- The embedded stable sort permutes its input. -/
theorem sortByTimestampDesc_perm (parse : String → Option Int) (l : List Post) :
    (sortByTimestampDesc parse l).Perm l :=
  List.perm_insertionSort _ l

/-- The embedded stable sort orders adjacent pairs newest first. -/
theorem sortByTimestampDesc_chain (parse : String → Option Int) (l : List Post) :
    (sortByTimestampDesc parse l).Chain'
      (fun a b => postSortKey parse b ≤ postSortKey parse a) :=
  (List.sorted_insertionSort (newestFirst parse) l).chain'

/-- Anything prefixed with `https://` matches the URI-scheme test. -/
theorem startsWithCI_https_append (s : String) :
    startsWithCI ("https://" ++ s) "https://" = true := by
  unfold startsWithCI jsToLower
  rw [show ("https://" ++ s).toList = "https://".toList ++ s.toList from
    String.data_append _ _]
  rw [List.map_append]
  rw [List.toList_asString]
  rw [show "https://".toList.length = (List.map jsLowerChar "https://".toList).length
    from by simp]
  rw [List.take_left]
  decide

/-- `buildImageUrl` returns the empty string, a scheme-matching URI, or a
non-empty non-numeric passthrough — never a bare numeric id. -/
theorem buildImageUrl_shape (v : JSVal) :
    buildImageUrl v = "" ∨ matchesUriScheme (buildImageUrl v) = true ∨
      (buildImageUrl v ≠ "" ∧ isNumericStr (buildImageUrl v) = false) := by
  unfold buildImageUrl
  by_cases h1 : jsIsNullish v = true
  · rw [if_pos h1]
    exact Or.inl rfl
  · rw [if_neg h1]
    dsimp only
    generalize jsTrim v.jsToString = str
    split_ifs with h2 h3 h4
    · exact Or.inl rfl
    · exact Or.inr (Or.inl h3)
    · refine Or.inr (Or.inl ?_)
      unfold matchesUriScheme
      rw [startsWithCI_https_append]
      simp
    · exact Or.inr (Or.inr ⟨h2, by simpa using h4⟩)

/-- The shared filter predicate body holds exactly when the category
conjunct (when categories are selected) and the flattened-subcategory
conjunct (when any subcategory is selected) both hold. -/
theorem passesFilters_iff (cats : List Category) (flat : List String) (p : Post) :
    passesFilters cats flat p = true ↔
      ((cats ≠ [] → p.category ∈ cats) ∧
        (flat ≠ [] → ∃ s, p.subcategory = some s ∧ s ≠ "" ∧ s ∈ flat)) := by
  unfold passesFilters
  rcases hs : p.subcategory with _ | s
  · constructor
    · intro h
      simp only [Bool.and_eq_true] at h
      refine ⟨fun hc => ?_, fun hf => ?_⟩
      · have := h.1
        rw [if_pos hc] at this
        simpa using this
      · have := h.2
        rw [if_pos hf] at this
        simp at this
    · intro ⟨h1, h2⟩
      simp only [Bool.and_eq_true]
      constructor
      · by_cases hc : cats = []
        · rw [if_neg (by simpa using hc)]
        · rw [if_pos hc]
          simpa using h1 hc
      · by_cases hf : flat = []
        · rw [if_neg (by simpa using hf)]
        · obtain ⟨s, hss, -⟩ := h2 hf
          exact Option.noConfusion hss
  · constructor
    · intro h
      simp only [Bool.and_eq_true] at h
      refine ⟨fun hc => ?_, fun hf => ?_⟩
      · have := h.1
        rw [if_pos hc] at this
        simpa using this
      · have := h.2
        rw [if_pos hf] at this
        by_cases hse : s = ""
        · rw [if_neg (by simpa using hse)] at this
          simp at this
        · rw [if_pos hse] at this
          exact ⟨s, rfl, hse, by simpa using this⟩
    · intro ⟨h1, h2⟩
      simp only [Bool.and_eq_true]
      constructor
      · by_cases hc : cats = []
        · rw [if_neg (by simpa using hc)]
        · rw [if_pos hc]
          simpa using h1 hc
      · by_cases hf : flat = []
        · rw [if_neg (by simpa using hf)]
        · rw [if_pos hf]
          obtain ⟨t, hts, hte, htm⟩ := h2 hf
          obtain rfl : s = t := by injection hts
          rw [if_pos hte]
          simpa using htm

/-! ## Claim theorems -/

/-- Claim C1: every successful live list call returns the normalization of
the first array found by probing the body's candidate keys in the fixed
priority order (posts, results, data, whole body — empty if none is an
array), sorted so that every adjacent pair is ordered newest first by
effective timestamp (update time if present, else creation time). -/
theorem getPosts_probe_normalize_sort (parse : String → Option Int)
    (toISO : Int → String) (now : Int) (httpOk : Bool) (failMsg : String)
    (body : ListBody) (l : List Post)
    (hRT : ∀ t, parse (toISO t) = some t)
    (h : getPostsLive parse toISO now httpOk failMsg body = mkSuccess l) :
    (∃ ps, mapExcept (normalizePost parse toISO now) (extractRawPosts body) =
        .ok ps ∧ l.Perm ps)
  ∧ l.Chain' (fun a b => postSortKey parse b ≤ postSortKey parse a)
  ∧ ∀ p ∈ l, parse (effectiveTs p) = some (postSortKey parse p) := by
  unfold getPostsLive at h
  cases httpOk
  · simp [mkFailure, mkSuccess] at h
  · rw [if_neg (by decide : ¬ ((!true) = true))] at h
    split at h
    · simp [mkFailure, mkSuccess] at h
    · rename_i ps hps
      have hl : sortByTimestampDesc parse ps = l := by
        simpa [mkSuccess] using h
      refine ⟨⟨ps, hps, ?_⟩, ?_, ?_⟩
      · rw [← hl]
        exact sortByTimestampDesc_perm parse ps
      · rw [← hl]
        exact sortByTimestampDesc_chain parse ps
      · intro p hp
        rw [← hl] at hp
        have hp' : p ∈ ps := ((sortByTimestampDesc_perm parse ps).mem_iff).mp hp
        obtain ⟨raw, -, hraw⟩ := mapExcept_ok_mem _ _ _ hps p hp'
        have hts := normalizePost_ok_timestamps _ _ _ _ _ hraw
        exact effectiveTs_parses parse toISO hRT p hts.1 hts.2

/-- Claim C1 witness: the list contract applied to a concrete two-post
body under the witness date model. -/
theorem getPosts_probe_normalize_sort_witness :
    cparse (effectiveTs witnessHeadPost) = some (postSortKey cparse witnessHeadPost) :=
  (getPosts_probe_normalize_sort cparse ctoISO 5 true "Failed to fetch posts"
    witnessListBody witnessSortedPosts cparse_ctoISO (by decide)).2.2
    witnessHeadPost (by decide)

/-- Claim C2 counterexample: a raw post whose `video_url` is the bare
numeric id "42" is accepted by `normalizePost`, and the resulting
`videoUri` is that bare numeric string, not an expanded URL — the claim is
false for the secondary video reference. -/
theorem normalizePost_numeric_videoUri_cex :
    (normalizePost cparse ctoISO 5 (some { video_url := .prim (.jstr "42") })).toOption.map
        Post.videoUri = some (.prim (.jstr "42"))
  ∧ isNumericStr "42" = true := by
  constructor <;> decide

/-- Claim C2 (amended): for every raw post accepted by `normalizePost`, the
primary photo reference is empty, a scheme-matching fetchable URI, or a
non-empty non-numeric passthrough — never a bare numeric media id (the
video reference is passed through verbatim and has no such guarantee). -/
theorem normalizePost_photoUri_fetchable (parse : String → Option Int)
    (toISO : Int → String) (now : Int) (raw : Option RawPost) (p : Post)
    (h : normalizePost parse toISO now raw = .ok p) :
    p.photoUri = "" ∨ matchesUriScheme p.photoUri = true ∨
      (p.photoUri ≠ "" ∧ isNumericStr p.photoUri = false) := by
  rcases raw with _ | raw
  · simp only [normalizePost, Except.ok.injEq] at h
    rw [← h]
    exact Or.inl rfl
  · simp only [normalizePost] at h
    split at h
    · simp at h
    · simp at h
    · rw [Except.ok.injEq] at h
      rw [← h]
      exact buildImageUrl_shape _

/-- Claim C2 witness: the photo guarantee at a concrete numeric-id raw
post. -/
theorem normalizePost_photoUri_fetchable_witness :
    witnessNormalizedPost.photoUri = "" ∨
      matchesUriScheme witnessNormalizedPost.photoUri = true ∨
      (witnessNormalizedPost.photoUri ≠ "" ∧
        isNumericStr witnessNormalizedPost.photoUri = false) :=
  normalizePost_photoUri_fetchable cparse ctoISO 5 (some witnessRawPhoto)
    witnessNormalizedPost (by decide)

/-- Claim C3 counterexample: resolving an existing post with an empty
resolution photo reference succeeds in mock mode, and in live mode the PUT
network request is issued — no validation failure is returned in either
mode, so the claim is false as stated. -/
theorem resolvePost_accepts_missing_photo_cex :
    ((mockResolvePost ctoISO 5 [cexResolveTarget] cexResolveData).2).success = true
  ∧ (resolvePostLive cparse ctoISO 5 cexResolveData (mkFailure "no upload") true
      "Failed to resolve post" none).1 = [.putPostReq "p1" ""]
  ∧ ((resolvePostLive cparse ctoISO 5 cexResolveData (mkFailure "no upload") true
      "Failed to resolve post" none).2).success = true := by
  refine ⟨by decide, by decide, by decide⟩

/-- Claim C3 (amended): the gateway's `resolvePost` performs no
resolution-photo validation in either mode — mock mode resolves an
existing post even with an empty photo reference, and live mode proceeds
straight to the PUT network request, skipping only the upload step; the
missing-photo validation lives in the post-detail screen's resolve
handler, which rejects before the gateway is invoked. -/
theorem resolvePost_no_photo_validation (parse : String → Option Int)
    (toISO : Int → String) (now : Int) (storage : List Post) (d : ResolvePostData)
    (upl : ApiResponse UploadData) (putOk : Bool) (pfm : String)
    (pbody : Option RawPost)
    (hempty : d.resolutionPhotoUri = "")
    (hfound : (storage.find? (fun p => p.id = d.postId)).isSome = true) :
    ((mockResolvePost toISO now storage d).2).success = true
  ∧ (resolvePostLive parse toISO now d upl putOk pfm pbody).1 =
      [.putPostReq d.postId d.resolutionPhotoUri]
  ∧ (∀ rc, jsTrim rc ≠ "" → handleResolveGuard rc (some d.resolutionPhotoUri) =
      some "Photo is required to resolve this post.") := by
  refine ⟨?_, ?_, ?_⟩
  · unfold mockResolvePost
    rcases hf : storage.find? (fun p => p.id = d.postId) with _ | p
    · rw [hf] at hfound
      simp at hfound
    · simp [hf, mkSuccess]
  · simp [resolvePostLive, hempty]
  · intro rc hrc
    unfold handleResolveGuard
    rw [if_neg hrc, hempty]
    simp

/-- Claim C3 witness: the amended behaviour at the concrete resolve data
with empty photo. -/
theorem resolvePost_no_photo_validation_witness :
    ((mockResolvePost ctoISO 5 [cexResolveTarget] cexResolveData).2).success = true :=
  (resolvePost_no_photo_validation cparse ctoISO 5 [cexResolveTarget] cexResolveData
    (mkFailure "no upload") true "Failed to resolve post" none (by decide) (by decide)).1

/-- Claim C4 (code bug): every `refreshPosts` invocation raises the
loading flag — the state trace of a refresh starting from an idle cache
with a successful empty fetch has loading flags true, true, false; there
is no silent parameter and no path that leaves the flag unchanged,
contradicting the silent-refresh behaviour the claim (and the repo's own
comments) describe. -/
theorem refreshPosts_raises_loading_flag :
    (refreshPostsStates cparse { posts := [], isLoading := false } (mkSuccess [])).map
        CacheState.isLoading = [true, true, false] := by
  decide

/-- Claim C5 counterexample: with no category selected but the "food"
subcategory selected under `help`, a post of category `alert` with
subcategory "food" passes the feed and map filters even though its
category is not in the (empty) selected category set — the claim's
"category must be selected" conjunct is false as stated. -/
theorem filter_category_conjunct_cex :
    feedFilteredPosts [] [(.help, ["food"])] [cexFilterPost] = [cexFilterPost]
  ∧ mapFilteredPosts [] [(.help, ["food"])] [cexFilterPost] = [cexFilterPost]
  ∧ ¬ (cexFilterPost.category ∈ ([] : List Category)) := by
  refine ⟨by decide, by decide, by decide⟩

/-- Claim C5 (amended): feed and map compute the same visibility; with
nothing selected everything passes; in general a post passes exactly when
its category is among the selected ones whenever any category is selected,
and, whenever any subcategory is selected anywhere in the scope, its own
subcategory is a member of the flattened selection — in particular a post
with no subcategory fails whenever any subcategory filter is active. -/
theorem filteredPosts_visibility (cats : List Category) (subs : SubMap)
    (posts : List Post) (p : Post) :
    (p ∈ feedFilteredPosts cats subs posts ↔ p ∈ mapFilteredPosts cats subs posts)
  ∧ (cats = [] ∧ subs = [] → (p ∈ feedFilteredPosts cats subs posts ↔ p ∈ posts))
  ∧ (p ∈ feedFilteredPosts cats subs posts ↔
      p ∈ posts ∧ (cats ≠ [] → p.category ∈ cats) ∧
        (flattenSubs subs ≠ [] → ∃ s, p.subcategory = some s ∧ s ≠ "" ∧
          s ∈ flattenSubs subs))
  ∧ (p.subcategory = none ∧ flattenSubs subs ≠ [] →
      p ∉ feedFilteredPosts cats subs posts) := by
  have hmap : p ∈ mapFilteredPosts cats subs posts ↔
      p ∈ posts ∧ (cats ≠ [] → p.category ∈ cats) ∧
        (flattenSubs subs ≠ [] → ∃ s, p.subcategory = some s ∧ s ≠ "" ∧
          s ∈ flattenSubs subs) := by
    unfold mapFilteredPosts
    rw [List.mem_filter, passesFilters_iff]
  have hfeed : p ∈ feedFilteredPosts cats subs posts ↔
      p ∈ posts ∧ (cats ≠ [] → p.category ∈ cats) ∧
        (flattenSubs subs ≠ [] → ∃ s, p.subcategory = some s ∧ s ≠ "" ∧
          s ∈ flattenSubs subs) := by
    unfold feedFilteredPosts
    by_cases he : cats = [] ∧ subs = []
    · rw [if_pos he]
      have hflat : flattenSubs subs = [] := by rw [he.2]; rfl
      simp [he.1, hflat]
    · rw [if_neg he, List.mem_filter, passesFilters_iff]
  refine ⟨hfeed.trans hmap.symm, fun he => ?_, hfeed, fun hh hmem => ?_⟩
  · rw [hfeed]
    have hflat : flattenSubs subs = [] := by rw [he.2]; rfl
    simp [he.1, hflat]
  · obtain ⟨-, -, hsub⟩ := hfeed.mp hmem
    obtain ⟨s, hss, -, -⟩ := hsub hh.2
    rw [hh.1] at hss
    exact Option.noConfusion hss

/-- Claim C5 witness: a subcategory-less post is filtered out while a
subcategory filter is active. -/
theorem filteredPosts_visibility_witness :
    witnessNoSubPost ∉
      feedFilteredPosts [.help] [(.help, ["food"])] [witnessNoSubPost] :=
  (filteredPosts_visibility [.help] [(.help, ["food"])] [witnessNoSubPost]
    witnessNoSubPost).2.2.2 ⟨rfl, by decide⟩

/-- Claim C6: the five backend category labels round-trip through
`fromBackendCategory` / `toBackendCategory`, and every backend subcategory
label of every category round-trips through `fromBackendSubcategory` /
`toBackendSubcategory`. -/
theorem category_subcategory_label_round_trip :
    ((["Alert", "Warning", "Help", "Resources", "Accessibility Resources"].all
      (fun L => toBackendCategory (fromBackendCategory (.prim (.jstr L))) == L)) = true)
  ∧ ((CATEGORIES.all (fun entry => entry.subcategories.all
      (fun sub => toBackendSubcategory entry.value
        (fromBackendSubcategory entry.value (.prim (.jstr sub.label))) == some sub.label))) = true) := by
  constructor <;> decide

/-- Claim C7 counterexample: adding a post whose id already exists in the
cache yields two entries with that id — `addPost` does not de-duplicate,
so "exactly one entry" is false for a prior cache already containing the
id. -/
theorem addPost_duplicate_id_cex :
    (addPost cparse cexDupNew [cexDupOld]).countP (fun q => q.id == cexDupNew.id) = 2 := by
  decide

/-- Claim C7 (amended): `addPost` permutes the prepended collection and
leaves it ordered newest first by effective-timestamp key; the number of
entries carrying the new post's id grows by exactly one, so the collection
holds exactly one such entry when the id was not already present. -/
theorem addPost_sorted_and_id_count (parse : String → Option Int) (p : Post)
    (prevPosts : List Post) :
    (addPost parse p prevPosts).Perm (p :: prevPosts)
  ∧ (addPost parse p prevPosts).Chain'
      (fun a b => postSortKey parse b ≤ postSortKey parse a)
  ∧ (addPost parse p prevPosts).countP (fun q => q.id == p.id) =
      prevPosts.countP (fun q => q.id == p.id) + 1
  ∧ ((∀ q ∈ prevPosts, q.id ≠ p.id) →
      (addPost parse p prevPosts).countP (fun q => q.id == p.id) = 1) := by
  have hperm : (addPost parse p prevPosts).Perm (p :: prevPosts) :=
    List.perm_insertionSort _ _
  have hcount : (addPost parse p prevPosts).countP (fun q => q.id == p.id) =
      prevPosts.countP (fun q => q.id == p.id) + 1 := by
    rw [hperm.countP_eq, List.countP_cons]
    simp
  refine ⟨hperm, sortByTimestampDesc_chain parse _, hcount, fun hnone => ?_⟩
  rw [hcount, List.countP_eq_zero.mpr ?_]
  intro q hq
  simpa using hnone q hq

/-- Claim C7 witness: exactly one entry with the new id after adding to a
cache that lacked it. -/
theorem addPost_sorted_and_id_count_witness :
    (addPost cparse cexDupNew [witnessFreshPost]).countP
      (fun q => q.id == cexDupNew.id) = 1 :=
  (addPost_sorted_and_id_count cparse cexDupNew [witnessFreshPost]).2.2.2
    (by decide)

/-- Claim C8: `fromBackendCategory` is total over any JS value and maps
every input whose trimmed lowercased string form is unrecognized to the
default fallback category `help`. -/
theorem fromBackendCategory_fallback (v : JSVal)
    (h : jsToLower (jsTrim (match v with | .prim (.jstr s) => s | _ => "")) ∉
      (["alert", "warning", "resources", "accessibility resources", "accessibility"] : List String)) :
    fromBackendCategory v = .help := by
  simp only [List.mem_cons, List.mem_singleton, not_or] at h
  obtain ⟨h1, h2, h3, h4, h5⟩ := h
  unfold fromBackendCategory
  rw [if_neg h1, if_neg h2, if_neg h3, if_neg (by tauto)]

/-- Claim C8 witness: an unrecognized category string falls back to
help. -/
theorem fromBackendCategory_fallback_witness :
    fromBackendCategory (.prim (.jstr "bogus")) = .help :=
  fromBackendCategory_fallback (.prim (.jstr "bogus")) (by decide)

/-- Claim C9: toggling a subcategory whose parent category is unselected
selects the parent category in that scope and leaves the other scope's
category set and subcategory map unchanged. -/
theorem toggleSubcategory_selects_parent (st : FiltersState) (scope : FilterScope)
    (c : Category) (s : String) (h : c ∉ st.cats scope) :
    c ∈ (toggleSubcategory st scope c s).cats scope
  ∧ (toggleSubcategory st scope c s).cats scope.other = st.cats scope.other
  ∧ (toggleSubcategory st scope c s).subs scope.other = st.subs scope.other := by
  cases scope
  · have hc : c ∉ st.catsFeed := h
    simp [toggleSubcategory, FiltersState.setSubs, FiltersState.setCats,
      FiltersState.cats, FiltersState.subs, FilterScope.other, hc]
  · have hc : c ∉ st.catsMap := h
    simp [toggleSubcategory, FiltersState.setSubs, FiltersState.setCats,
      FiltersState.cats, FiltersState.subs, FilterScope.other, hc]

/-- Claim C9 witness: toggling `help`/"food" in the feed scope of the
empty state selects `help`. -/
theorem toggleSubcategory_selects_parent_witness :
    Category.help ∈ (toggleSubcategory {} .feed .help "food").cats .feed :=
  (toggleSubcategory_selects_parent {} .feed .help "food" (by decide)).1

/-- Claim C10: `normalizePost` is not total over present-but-unparsable
timestamp fields — a raw post whose `created_at` is a non-empty string the
date parser rejects makes it throw the `RangeError` instead of returning a
Post, while a raw post with absent timestamp fields is defensively
defaulted and normalizes successfully. -/
theorem normalizePost_invalid_timestamp_throws (parse : String → Option Int)
    (toISO : Int → String) (now : Int) (s : String)
    (hbad : parse s = none) (hne : s ≠ "") :
    normalizePost parse toISO now (some { created_at := .prim (.jstr s) }) =
      .error "Invalid time value"
  ∧ (∀ t : Int, parse (toISO now) = some t →
      (normalizePost parse toISO now (some {})).toOption.isSome = true) := by
  constructor
  · simp [normalizePost, jsOr, JSVal.truthy, JPrim.truthy, hne, jsToISOString,
      jsDateMs, hbad]
  · intro t ht
    simp [normalizePost, jsOr, JSVal.truthy, JPrim.truthy, jsToISOString,
      jsDateMs, ht, Except.toOption]

/-- Claim C10 witness: the unparsable string "not-a-date" in `created_at`
makes normalization throw under the witness date model, while the empty
raw post normalizes fine. -/
theorem normalizePost_invalid_timestamp_throws_witness :
    normalizePost cparseBad ctoISO 5 (some { created_at := .prim (.jstr "not-a-date") }) =
      .error "Invalid time value"
  ∧ (normalizePost cparseBad ctoISO 5 (some {})).toOption.isSome = true :=
  ⟨(normalizePost_invalid_timestamp_throws cparseBad ctoISO 5 "not-a-date"
      (by decide) (by decide)).1,
   (normalizePost_invalid_timestamp_throws cparseBad ctoISO 5 "not-a-date"
      (by decide) (by decide)).2 5 (by decide)⟩
